import Mathlib

/-!
Verification of the `vscode-linter-api` offense/configuration contract.

The repository consists of TypeScript type declarations (`src/out/index.d.ts`,
with an older published revision in `src/unnamed/part_000`) together with one
piece of runtime code: the `LinterOffenseSeverity` enum object constructed in
`src/out/index.js`.  This file gives a shallow embedding of those declarations
and of the runtime enum object, and proves the contract's stated properties
against the embedding.
-/

set_option autoImplicit false

namespace LinterApi

/-- `LinterOffenseSeverity` from `src/out/index.d.ts` lines 5-10: a closed
enumeration with members `error`, `warning`, `information`, `hint`. -/
inductive LinterOffenseSeverity where
  | error
  | warning
  | information
  | hint
deriving DecidableEq, Repr

/-- The integer ordinal assigned to each enum member by the declaration
(`error = 0`, `warning = 1`, `information = 2`, `hint = 3`). -/
def LinterOffenseSeverity.toInt : LinterOffenseSeverity → Nat
  | .error => 0
  | .warning => 1
  | .information => 2
  | .hint => 3

/-- The source-level name of each enum member. -/
def LinterOffenseSeverity.memberName : LinterOffenseSeverity → String
  | .error => "error"
  | .warning => "warning"
  | .information => "information"
  | .hint => "hint"

/-- A value stored in the runtime enum object of `src/out/index.js`: JavaScript
stores either the member's number (under the name key) or the member's name
(under the stringified number key). -/
inductive EnumValue where
  | str (s : String)
  | num (n : Nat)
deriving DecidableEq, Repr

/-- One statement of the IIFE in `src/out/index.js`,
`E[E[name] = value] = name`: it first assigns `value` under the key `name`,
then assigns `name` under the stringified-number key `value`.  Property keys
in a JavaScript object are strings, so the numeric key is `Nat.repr value`. -/
def defineEnumMember (acc : List (String × EnumValue)) (nm : String) (value : Nat) :
    List (String × EnumValue) :=
  acc ++ [(nm, .num value), (Nat.repr value, .str nm)]

/-- The runtime `LinterOffenseSeverity` object built by the IIFE in
`src/out/index.js` lines 8-12, as the sequence of property assignments in
source order. -/
def severityEnumObject : List (String × EnumValue) :=
  defineEnumMember
    (defineEnumMember
      (defineEnumMember
        (defineEnumMember [] "error" 0)
        "warning" 1)
      "information" 2)
    "hint" 3

/-- Property lookup on the runtime enum object.  Later assignments overwrite
earlier ones in JavaScript, so the last binding for a key wins; the keys here
are pairwise distinct, making the choice immaterial. -/
def enumLookup (k : String) : Option EnumValue :=
  (severityEnumObject.reverse.find? (fun e => e.1 == k)).map (·.2)

/-- **C1.** `LinterOffenseSeverity` is closed with ordinals
`error = 0`, `warning = 1`, `information = 2`, `hint = 3`; mapping a member
name to its integer via the runtime object and that integer back to a name
returns the original member, so the ordinal round-trips unchanged. -/
theorem severity_ordinals_closed_and_roundtrip :
    LinterOffenseSeverity.error.toInt = 0 ∧
    LinterOffenseSeverity.warning.toInt = 1 ∧
    LinterOffenseSeverity.information.toInt = 2 ∧
    LinterOffenseSeverity.hint.toInt = 3 ∧
    (∀ s : LinterOffenseSeverity,
      enumLookup s.memberName = some (.num s.toInt) ∧
      enumLookup (Nat.repr s.toInt) = some (.str s.memberName) ∧
      s.toInt < 4) := by
  refine ⟨rfl, rfl, rfl, rfl, ?_⟩
  intro s
  cases s <;> exact ⟨by decide, by decide, by decide⟩

/-- **C9.** The runtime enum object is a two-way mapping: indexing by a
member's integer value returns the member's name, and name-to-ordinal followed
by ordinal-to-name is the identity on the four members. -/
theorem severity_enum_two_way_mapping :
    enumLookup (Nat.repr 0) = some (.str "error") ∧
    enumLookup (Nat.repr 1) = some (.str "warning") ∧
    enumLookup (Nat.repr 2) = some (.str "information") ∧
    enumLookup (Nat.repr 3) = some (.str "hint") ∧
    (∀ s : LinterOffenseSeverity,
      (enumLookup s.memberName).bind
        (fun v =>
          match v with
          | .num n => enumLookup (Nat.repr n)
          | .str _ => none) = some (.str s.memberName)) := by
  refine ⟨by decide, by decide, by decide, by decide, ?_⟩
  intro s
  cases s <;> decide

/-- The `vscode` `Uri` type imported by `src/out/index.d.ts` line 1: an opaque
host-owned document reference, modelled by its string form. -/
structure Uri where
  value : String
deriving DecidableEq, Repr

/-- The `vscode` `TextDocument` type imported by `src/out/index.d.ts` line 1:
an opaque host-owned document handle. -/
structure TextDocument where
  uri : Uri
  text : String
deriving DecidableEq, Repr

/-- A JavaScript value, used to model TypeScript's `unknown` (the `meta` field
of `LinterOffense`) and the structural view of configuration records. -/
inductive JsValue where
  | null
  | boolean (b : Bool)
  | number (n : Int)
  | str (s : String)
  | arr (elems : List JsValue)
  | obj (fields : List (String × JsValue))

/-- A line/column position, the shape of `inlineFix.start` and `inlineFix.end`
in `src/out/index.d.ts` lines 73-80. -/
structure FixPosition where
  column : Int
  line : Int
deriving DecidableEq, Repr

/-- The `inlineFix` union of `src/out/index.d.ts` lines 71-84: either
`{replacement, start, end}` (range shape) or `{replacement, offset}` (offset
shape).  The TypeScript union has exactly these two alternatives. -/
inductive InlineFix where
  | range (replacement : String) (start : FixPosition) (stop : FixPosition)
  | offset (replacement : String) (offset : Int × Int)
deriving DecidableEq, Repr

/-- Whether an `inlineFix` value carries the offset shape's distinguishing
field `offset`. -/
def InlineFix.hasOffsetField : InlineFix → Bool
  | .offset _ _ => true
  | .range _ _ _ => false

/-- Whether an `inlineFix` value carries the range shape's distinguishing
fields `start`/`end`. -/
def InlineFix.hasRangeFields : InlineFix → Bool
  | .offset _ _ => false
  | .range _ _ _ => true

/-- `LinterOffense` from `src/out/index.d.ts` lines 11-91.  TypeScript
`number` fields are modelled as `Int`; optional fields (`?`) as `Option`;
`meta?: unknown` as an optional arbitrary JavaScript value. -/
structure LinterOffense where
  code : String
  message : String
  source : String
  uri : Uri
  severity : LinterOffenseSeverity
  lineStart : Int
  columnStart : Int
  lineEnd : Int
  columnEnd : Int
  correctable : Bool
  docsUrl : Option String := none
  inlineFix : Option InlineFix := none
  meta : Option JsValue := none

/-- The documented validity constraints on an offense record: each of the four
position fields "must be zero-indexed and equal to or greater than zero"
(doc comments at `src/out/index.d.ts` lines 34-55).  No other constraint on
the positions is declared. -/
def LinterOffense.valid (o : LinterOffense) : Prop :=
  0 ≤ o.lineStart ∧ 0 ≤ o.columnStart ∧ 0 ≤ o.lineEnd ∧ 0 ≤ o.columnEnd

/-- The end position is meaningful: it is not merely a duplicate of the start
position (the declaration's comment allows linters that report no range end to
"use the line start", i.e. duplicate the start values). -/
def LinterOffense.endMeaningful (o : LinterOffense) : Prop :=
  ¬ (o.lineEnd = o.lineStart ∧ o.columnEnd = o.columnStart)

/-- Document order: the end position is at or after the start position. -/
def LinterOffense.documentOrderLe (o : LinterOffense) : Prop :=
  o.lineStart < o.lineEnd ∨ (o.lineStart = o.lineEnd ∧ o.columnStart ≤ o.columnEnd)

/-- **C2.** Every present `inlineFix` has exactly one of the two shapes: it
carries the `offset` field or the `start`/`end` fields, never both and never
neither, and every value is literally one of the two record shapes. -/
theorem inlineFix_shapes_exclusive_exhaustive
    (o : LinterOffense) (f : InlineFix) (h : o.inlineFix = some f) :
    (f.hasOffsetField = true ∧ f.hasRangeFields = false ∧
      ∃ r off, f = .offset r off) ∨
    (f.hasOffsetField = false ∧ f.hasRangeFields = true ∧
      ∃ r s e, f = .range r s e) := by
  cases f with
  | range r s e => exact Or.inr ⟨rfl, rfl, r, s, e, rfl⟩
  | offset r off => exact Or.inl ⟨rfl, rfl, r, off, rfl⟩

/-- Concrete offense with an offset-shaped inline fix, exercising
`inlineFix_shapes_exclusive_exhaustive`. -/
def offsetFixOffense : LinterOffense where
  code := "E001"
  message := "trailing whitespace"
  source := "rubocop"
  uri := ⟨"file:///app/a.rb"⟩
  severity := .error
  lineStart := 3
  columnStart := 0
  lineEnd := 3
  columnEnd := 10
  correctable := true
  inlineFix := some (.offset "foo" (12, 22))

/-- Witness for C2: the concrete offense's inline fix has exactly the offset
shape. -/
theorem inlineFix_shapes_exclusive_exhaustive_witness :
    (InlineFix.hasOffsetField (.offset "foo" (12, 22)) = true ∧
      InlineFix.hasRangeFields (.offset "foo" (12, 22)) = false ∧
      ∃ r off, (InlineFix.offset "foo" (12, 22)) = .offset r off) ∨
    (InlineFix.hasOffsetField (.offset "foo" (12, 22)) = false ∧
      InlineFix.hasRangeFields (.offset "foo" (12, 22)) = true ∧
      ∃ r s e, (InlineFix.offset "foo" (12, 22)) = .range r s e) :=
  inlineFix_shapes_exclusive_exhaustive offsetFixOffense (.offset "foo" (12, 22)) rfl

/-- Valid offense whose end position differs from its start yet lies before it
in document order: the declared contract does not rule this out. -/
def reversedRangeOffense : LinterOffense where
  code := "E002"
  message := "reversed range"
  source := "badlint"
  uri := ⟨"file:///app/b.rb"⟩
  severity := .warning
  lineStart := 5
  columnStart := 0
  lineEnd := 2
  columnEnd := 0
  correctable := false

/-- **C5, counterexample.** A record satisfying every documented constraint of
`LinterOffense` (all four positions nonnegative) whose end position is
meaningful (not a duplicate of the start) and yet precedes the start in
document order: the claimed order invariant does not hold of all valid
records. -/
theorem offense_document_order_counterexample :
    reversedRangeOffense.valid ∧
    reversedRangeOffense.endMeaningful ∧
    ¬ reversedRangeOffense.documentOrderLe := by
  refine ⟨⟨by decide, by decide, by decide, by decide⟩, ?_, ?_⟩
  · intro h
    exact absurd h.1 (by decide)
  · intro h
    cases h with
    | inl h => exact absurd h (by decide)
    | inr h => exact absurd h.1 (by decide)

/-- **C5, amended.** Every valid offense has all four position fields
nonnegative; the contract does not constrain the end position relative to the
start position. -/
theorem offense_positions_nonneg (o : LinterOffense) (h : o.valid) :
    0 ≤ o.lineStart ∧ 0 ≤ o.columnStart ∧ 0 ≤ o.lineEnd ∧ 0 ≤ o.columnEnd :=
  h

/-- Witness for the amended C5 at the concrete offense `offsetFixOffense`. -/
theorem offense_positions_nonneg_witness :
    offsetFixOffense.valid ∧
    (0 ≤ offsetFixOffense.lineStart ∧ 0 ≤ offsetFixOffense.columnStart ∧
      0 ≤ offsetFixOffense.lineEnd ∧ 0 ≤ offsetFixOffense.columnEnd) :=
  ⟨⟨by decide, by decide, by decide, by decide⟩,
    offense_positions_nonneg offsetFixOffense
      ⟨by decide, by decide, by decide, by decide⟩⟩

/-- A JavaScript `Promise` of a value, modelled by its settled value: the
contract's functions are single-shot asynchronous calls whose result is the
value the promise resolves with. -/
structure Promise (α : Type) where
  resolvesWith : α
deriving DecidableEq, Repr

/-- A promise resolved with `a`. -/
def Promise.pureValue {α : Type} (a : α) : Promise α :=
  ⟨a⟩

/-- `LinterParams` from `src/out/index.d.ts` lines 92-109: one command
execution's raw result. -/
structure LinterParams where
  uri : Uri
  stdout : String
  stderr : String
  status : Int
deriving DecidableEq, Repr

/-- `Line` from `src/out/index.d.ts` lines 110-113. -/
structure Line where
  text : String
  number : Int
deriving DecidableEq, Repr

/-- Parameter shape of `LinterGetIgnoreEolPragmaFunction`
(`src/out/index.d.ts` lines 119-122). -/
structure IgnoreEolPragmaParams where
  line : Line
  code : String
deriving DecidableEq, Repr

/-- Parameter shape of `LinterGetIgnoreLinePragmaFunction`
(`src/out/index.d.ts` lines 128-132). -/
structure IgnoreLinePragmaParams where
  line : Line
  code : String
  indent : String
deriving DecidableEq, Repr

/-- Parameter shape of `LinterGetIgnoreFilePragmaFunction`
(`src/out/index.d.ts` lines 136-141). -/
structure IgnoreFilePragmaParams where
  line : Line
  code : String
  indent : String
  document : TextDocument
deriving DecidableEq, Repr

/-- Parameter shape of `LinterParseFixOutputFunction`
(`src/out/index.d.ts` lines 147-152). -/
structure ParseFixOutputParams where
  input : String
  stdout : String
  stderr : String
  uri : Uri
deriving DecidableEq, Repr

/-- `LinterGetOffensesFunction` (`src/out/index.d.ts` line 157): parses
stdout/stderr into a promise of a list of offenses. -/
def LinterGetOffensesFunction : Type :=
  LinterParams → Promise (List LinterOffense)

/-- `LinterGetIgnoreEolPragmaFunction` (`src/out/index.d.ts` lines 119-122). -/
def LinterGetIgnoreEolPragmaFunction : Type :=
  IgnoreEolPragmaParams → Promise String

/-- `LinterGetIgnoreLinePragmaFunction` (`src/out/index.d.ts` lines 128-132). -/
def LinterGetIgnoreLinePragmaFunction : Type :=
  IgnoreLinePragmaParams → Promise String

/-- `LinterGetIgnoreFilePragmaFunction` (`src/out/index.d.ts` lines 136-141). -/
def LinterGetIgnoreFilePragmaFunction : Type :=
  IgnoreFilePragmaParams → Promise String

/-- `LinterParseFixOutputFunction` (`src/out/index.d.ts` lines 147-152). -/
def LinterParseFixOutputFunction : Type :=
  ParseFixOutputParams → Promise String

/-- The `Linter` contract from `src/out/index.d.ts` lines 161-167:
`getOffenses` is required, the other four operations are optional. -/
structure Linter where
  getOffenses : LinterGetOffensesFunction
  getIgnoreEolPragma : Option LinterGetIgnoreEolPragmaFunction := none
  getIgnoreLinePragma : Option LinterGetIgnoreLinePragmaFunction := none
  getIgnoreFilePragma : Option LinterGetIgnoreFilePragmaFunction := none
  parseFixOutput : Option LinterParseFixOutputFunction := none

/-- **C3.** Every adapter-facing operation is asynchronous: `getOffenses`
always yields a promise resolving with a list of offenses, and each of the
four optional operations, when supplied, always yields a promise resolving
with a string. -/
theorem linter_operations_return_promises (l : Linter) :
    (∀ p : LinterParams,
      ∃ offenses : List LinterOffense,
        l.getOffenses p = Promise.pureValue offenses) ∧
    (∀ f, l.getIgnoreEolPragma = some f →
      ∀ p : IgnoreEolPragmaParams, ∃ s : String, f p = Promise.pureValue s) ∧
    (∀ f, l.getIgnoreLinePragma = some f →
      ∀ p : IgnoreLinePragmaParams, ∃ s : String, f p = Promise.pureValue s) ∧
    (∀ f, l.getIgnoreFilePragma = some f →
      ∀ p : IgnoreFilePragmaParams, ∃ s : String, f p = Promise.pureValue s) ∧
    (∀ f, l.parseFixOutput = some f →
      ∀ p : ParseFixOutputParams, ∃ s : String, f p = Promise.pureValue s) :=
  ⟨fun p => ⟨(l.getOffenses p).resolvesWith, rfl⟩,
    fun f _ p => ⟨(f p).resolvesWith, rfl⟩,
    fun f _ p => ⟨(f p).resolvesWith, rfl⟩,
    fun f _ p => ⟨(f p).resolvesWith, rfl⟩,
    fun f _ p => ⟨(f p).resolvesWith, rfl⟩⟩

/-- A sample line used by the concrete adapter below. -/
def sampleLine : Line :=
  ⟨"foo()", 5⟩

/-- A concrete adapter implementing all five operations. -/
def fullLinter : Linter where
  getOffenses := fun _ => Promise.pureValue [offsetFixOffense]
  getIgnoreEolPragma := some fun p => Promise.pureValue (p.line.text ++ " # rubocop:disable " ++ p.code)
  getIgnoreLinePragma := some fun p => Promise.pureValue (p.indent ++ "# rubocop:disable " ++ p.code)
  getIgnoreFilePragma := some fun p => Promise.pureValue (p.indent ++ "# rubocop:disable all")
  parseFixOutput := some fun p => Promise.pureValue p.stdout

/-- Concrete execution parameters for the sample adapter. -/
def sampleParams : LinterParams :=
  ⟨⟨"file:///app/a.rb"⟩, "a.rb:4:1: E001 trailing whitespace", "", 1⟩

/-- Witness for C3: the concrete adapter's operations each resolve with a
value of the declared result type. -/
theorem linter_operations_return_promises_witness :
    (∃ offenses : List LinterOffense,
      fullLinter.getOffenses sampleParams = Promise.pureValue offenses) ∧
    (∃ s : String,
      (fun p => Promise.pureValue (p.line.text ++ " # rubocop:disable " ++ p.code) :
        LinterGetIgnoreEolPragmaFunction) ⟨sampleLine, "E001"⟩ = Promise.pureValue s) :=
  ⟨(linter_operations_return_promises fullLinter).1 sampleParams,
    (linter_operations_return_promises fullLinter).2.1
      (fun p => Promise.pureValue (p.line.text ++ " # rubocop:disable " ++ p.code))
      rfl ⟨sampleLine, "E001"⟩⟩

/-- **C7.** `getOffenses` is mandatory and the other four operations are
optional: every choice of a `getOffenses` implementation yields a valid
`Linter` record supplying only `getOffenses`, and every `Linter` carries a
`getOffenses` implementation. -/
theorem linter_only_getOffenses_mandatory :
    (∀ f : LinterGetOffensesFunction,
      ∃ l : Linter,
        l.getOffenses = f ∧
        l.getIgnoreEolPragma = none ∧
        l.getIgnoreLinePragma = none ∧
        l.getIgnoreFilePragma = none ∧
        l.parseFixOutput = none) ∧
    (∀ l : Linter, ∃ f : LinterGetOffensesFunction, l.getOffenses = f) :=
  ⟨fun f => ⟨{ getOffenses := f }, rfl, rfl, rfl, rfl, rfl⟩,
    fun l => ⟨l.getOffenses, rfl⟩⟩

/-- **C8.** Adapter operations are deterministic in the embedding: two calls
with identical, independently constructed parameter records return the same
result, for the mandatory operation and for each optional operation. -/
theorem linter_operations_deterministic (l : Linter)
    (p₁ p₂ : LinterParams) (hp : p₁ = p₂)
    (e₁ e₂ : IgnoreEolPragmaParams) (he : e₁ = e₂)
    (n₁ n₂ : IgnoreLinePragmaParams) (hn : n₁ = n₂)
    (d₁ d₂ : IgnoreFilePragmaParams) (hd : d₁ = d₂)
    (x₁ x₂ : ParseFixOutputParams) (hx : x₁ = x₂) :
    l.getOffenses p₁ = l.getOffenses p₂ ∧
    l.getIgnoreEolPragma.map (fun f => f e₁) =
      l.getIgnoreEolPragma.map (fun f => f e₂) ∧
    l.getIgnoreLinePragma.map (fun f => f n₁) =
      l.getIgnoreLinePragma.map (fun f => f n₂) ∧
    l.getIgnoreFilePragma.map (fun f => f d₁) =
      l.getIgnoreFilePragma.map (fun f => f d₂) ∧
    l.parseFixOutput.map (fun f => f x₁) =
      l.parseFixOutput.map (fun f => f x₂) := by
  subst hp he hn hd hx
  exact ⟨rfl, rfl, rfl, rfl, rfl⟩

/-- Witness for C8 at the concrete adapter and concrete parameter records. -/
theorem linter_operations_deterministic_witness :
    fullLinter.getOffenses sampleParams = fullLinter.getOffenses sampleParams ∧
    fullLinter.getIgnoreEolPragma.map (fun f => f ⟨sampleLine, "E001"⟩) =
      fullLinter.getIgnoreEolPragma.map (fun f => f ⟨sampleLine, "E001"⟩) ∧
    fullLinter.getIgnoreLinePragma.map (fun f => f ⟨sampleLine, "E001", "  "⟩) =
      fullLinter.getIgnoreLinePragma.map (fun f => f ⟨sampleLine, "E001", "  "⟩) ∧
    fullLinter.getIgnoreFilePragma.map
        (fun f => f ⟨sampleLine, "E001", "", ⟨⟨"file:///app/a.rb"⟩, "foo()"⟩⟩) =
      fullLinter.getIgnoreFilePragma.map
        (fun f => f ⟨sampleLine, "E001", "", ⟨⟨"file:///app/a.rb"⟩, "foo()"⟩⟩) ∧
    fullLinter.parseFixOutput.map (fun f => f ⟨"foo()", "foo", "", ⟨"file:///app/a.rb"⟩⟩) =
      fullLinter.parseFixOutput.map (fun f => f ⟨"foo()", "foo", "", ⟨"file:///app/a.rb"⟩⟩) :=
  linter_operations_deterministic fullLinter
    sampleParams sampleParams rfl
    ⟨sampleLine, "E001"⟩ ⟨sampleLine, "E001"⟩ rfl
    ⟨sampleLine, "E001", "  "⟩ ⟨sampleLine, "E001", "  "⟩ rfl
    ⟨sampleLine, "E001", "", ⟨⟨"file:///app/a.rb"⟩, "foo()"⟩⟩
      ⟨sampleLine, "E001", "", ⟨⟨"file:///app/a.rb"⟩, "foo()"⟩⟩ rfl
    ⟨"foo()", "foo", "", ⟨"file:///app/a.rb"⟩⟩
      ⟨"foo()", "foo", "", ⟨"file:///app/a.rb"⟩⟩ rfl

/-- `Command` from `src/out/index.d.ts` line 185: either a flat token list or
a list of token lists (multiple commands run in order). -/
inductive Command where
  | flat (tokens : List String)
  | seq (commands : List (List String))

/-- One conditional-activation rule of `LinterConfigType.args`
(`src/out/index.d.ts` lines 238-244): each field is optional. -/
structure ArgsRule where
  languages : Option (List String) := none
  extensions : Option (List String) := none
  shebangs : Option (List String) := none

/-- `LinterConfigType` from `src/out/index.d.ts` lines 186-259, as a named
record.  The `capabilities` field is declared `string[]`: a list of arbitrary
strings. -/
structure LinterConfigType where
  name : String
  command : Command
  configFiles : List String
  enabled : Bool
  languages : List String
  capabilities : List String
  args : Option (List (String × ArgsRule)) := none
  url : String
  when : List String
  importPath : Option String := none

/-- The six capability names documented in the `capabilities` doc comment
(`src/out/index.d.ts` lines 212-220). -/
def linterCapabilities : List String :=
  ["ignore-all", "ignore-line", "ignore-eol", "fix-one", "fix-category", "fix-all"]

/-- A configuration record whose `capabilities` entry lies outside the six
documented names, yet inhabits the declared `LinterConfigType`. -/
def badCapabilityConfig : LinterConfigType where
  name := "badlint"
  command := .flat ["badlint", "$file"]
  configFiles := []
  enabled := true
  languages := ["ruby"]
  capabilities := ["frobnicate"]
  url := "https://example.com/badlint"
  when := []

/-- **C6, counterexample.** The declared type of `capabilities` is a list of
arbitrary strings, so it is false that every element of every
`LinterConfigType` value's capabilities lies in the documented six-name set:
`badCapabilityConfig` carries the capability `"frobnicate"`. -/
theorem capabilities_closed_set_counterexample :
    ¬ ∀ cfg : LinterConfigType, ∀ c ∈ cfg.capabilities, c ∈ linterCapabilities := by
  intro h
  exact absurd (h badCapabilityConfig "frobnicate" (by decide)) (by decide)

/-- **C6, amended.** The documented capability set is exactly the six names
`ignore-all`, `ignore-line`, `ignore-eol`, `fix-one`, `fix-category`,
`fix-all`, but the declared type does not restrict `capabilities` to it: any
list of strings inhabits the field, and in particular a well-typed
configuration record can carry a capability outside the documented set. -/
theorem capabilities_type_admits_any_strings :
    linterCapabilities =
      ["ignore-all", "ignore-line", "ignore-eol", "fix-one", "fix-category", "fix-all"] ∧
    (∀ caps : List String, ∃ cfg : LinterConfigType, cfg.capabilities = caps) ∧
    (∃ cfg : LinterConfigType, ∃ c, c ∈ cfg.capabilities ∧ c ∉ linterCapabilities) :=
  ⟨rfl,
    fun caps =>
      ⟨{ name := "l", command := .flat [], configFiles := [], enabled := true,
         languages := [], capabilities := caps, url := "", when := [] }, rfl⟩,
    ⟨badCapabilityConfig, "frobnicate", by decide, by decide⟩⟩

/-- Property lookup on a JavaScript object modelled as a field list (first
binding for a key wins; object literals bind each key once). -/
def lookupKey (fields : List (String × JsValue)) (k : String) : Option JsValue :=
  (fields.find? (fun kv => kv.1 == k)).map (·.2)

/-- A required property: present and conforming. -/
def requiredKey (fields : List (String × JsValue)) (k : String) (p : JsValue → Bool) : Bool :=
  match lookupKey fields k with
  | some v => p v
  | none => false

/-- An optional property: absent, or present and conforming. -/
def optionalKey (fields : List (String × JsValue)) (k : String) (p : JsValue → Bool) : Bool :=
  match lookupKey fields k with
  | some v => p v
  | none => true

/-- Conformance to TypeScript `string`. -/
def isStr : JsValue → Bool
  | .str _ => true
  | _ => false

/-- Conformance to TypeScript `boolean`. -/
def isBool : JsValue → Bool
  | .boolean _ => true
  | _ => false

/-- Conformance to TypeScript `string[]`. -/
def isStrArray : JsValue → Bool
  | .arr xs => xs.all isStr
  | _ => false

/-- Conformance to TypeScript `string[][]`. -/
def isStrArrayArray : JsValue → Bool
  | .arr xs => xs.all isStrArray
  | _ => false

/-- Conformance to `Command` (`string[] | string[][]`,
`src/out/index.d.ts` line 185). -/
def isCommandValue (v : JsValue) : Bool :=
  isStrArray v || isStrArrayArray v

/-- Conformance to one `args` rule
`{languages?: string[]; extensions?: string[]; shebangs?: string[]}`
(`src/out/index.d.ts` lines 239-243); structurally, extra keys are allowed. -/
def isArgsRuleValue : JsValue → Bool
  | .obj fields =>
      optionalKey fields "languages" isStrArray &&
      optionalKey fields "extensions" isStrArray &&
      optionalKey fields "shebangs" isStrArray
  | _ => false

/-- Conformance to the `args` index-signature object
`{[key: string]: {...}}` (`src/out/index.d.ts` lines 238-244). -/
def isArgsValue : JsValue → Bool
  | .obj fields => fields.all (fun kv => isArgsRuleValue kv.2)
  | _ => false

/-- Conformance to `unknown`: every value conforms. -/
def isUnknown : JsValue → Bool := fun _ => true

/-- Structural conformance of a JavaScript object to `LinterConfigType`
(`src/out/index.d.ts` lines 186-259): each required declared field present
with a conforming value, each optional declared field conforming when
present; per structural assignability, undeclared keys are unconstrained. -/
def isLinterConfigTypeObj (fields : List (String × JsValue)) : Bool :=
  requiredKey fields "name" isStr &&
  requiredKey fields "command" isCommandValue &&
  requiredKey fields "configFiles" isStrArray &&
  requiredKey fields "enabled" isBool &&
  requiredKey fields "languages" isStrArray &&
  requiredKey fields "capabilities" isStrArray &&
  optionalKey fields "args" isArgsValue &&
  requiredKey fields "url" isStr &&
  requiredKey fields "when" isStrArray &&
  optionalKey fields "importPath" isStr

/-- Structural conformance to the mapped type
`{[key in keyof LinterConfigType]: unknown}` (`src/out/index.d.ts` lines
260-262): every required declared key present, every key's value widened to
`unknown`. -/
def isWidenedConfigRecordObj (fields : List (String × JsValue)) : Bool :=
  requiredKey fields "name" isUnknown &&
  requiredKey fields "command" isUnknown &&
  requiredKey fields "configFiles" isUnknown &&
  requiredKey fields "enabled" isUnknown &&
  requiredKey fields "languages" isUnknown &&
  requiredKey fields "capabilities" isUnknown &&
  optionalKey fields "args" isUnknown &&
  requiredKey fields "url" isUnknown &&
  requiredKey fields "when" isUnknown &&
  optionalKey fields "importPath" isUnknown

/-- Structural conformance of a JavaScript object to `LinterConfig`, the
intersection `LinterConfigType & {[key in keyof LinterConfigType]: unknown}`
(`src/out/index.d.ts` lines 260-262). -/
def isLinterConfigObj (fields : List (String × JsValue)) : Bool :=
  isLinterConfigTypeObj fields && isWidenedConfigRecordObj fields

/-- The declared field names of `LinterConfigType`. -/
def linterConfigKeys : List String :=
  ["name", "command", "configFiles", "enabled", "languages", "capabilities",
   "args", "url", "when", "importPath"]

/-- Appending entries whose keys all differ from `k` does not change the
lookup of `k`. -/
theorem lookupKey_append (base extras : List (String × JsValue)) (k : String)
    (h : ∀ kv ∈ extras, kv.1 ≠ k) :
    lookupKey (base ++ extras) k = lookupKey base k := by
  unfold lookupKey
  rw [List.find?_append]
  have hnone : extras.find? (fun kv => kv.1 == k) = none :=
    List.find?_eq_none.mpr (fun kv hkv => by simpa using h kv hkv)
  rw [hnone]
  cases base.find? (fun kv => kv.1 == k) <;> rfl

/-- Appending entries with fresh keys preserves a required-field check. -/
theorem requiredKey_append (base extras : List (String × JsValue)) (k : String)
    (h : ∀ kv ∈ extras, kv.1 ≠ k) (p : JsValue → Bool) :
    requiredKey (base ++ extras) k p = requiredKey base k p := by
  unfold requiredKey
  rw [lookupKey_append base extras k h]

/-- Appending entries with fresh keys preserves an optional-field check. -/
theorem optionalKey_append (base extras : List (String × JsValue)) (k : String)
    (h : ∀ kv ∈ extras, kv.1 ≠ k) (p : JsValue → Bool) :
    optionalKey (base ++ extras) k p = optionalKey base k p := by
  unfold optionalKey
  rw [lookupKey_append base extras k h]

/-- **C4.** The `LinterConfig` schema is open: a record satisfying the
declared field set extended by arbitrary entries under undeclared keys still
conforms to `LinterConfig`. -/
theorem linterConfig_schema_open (base extras : List (String × JsValue))
    (hbase : isLinterConfigObj base = true)
    (hextras : ∀ kv ∈ extras, kv.1 ∉ linterConfigKeys) :
    isLinterConfigObj (base ++ extras) = true := by
  have hkey : ∀ k, k ∈ linterConfigKeys → ∀ kv ∈ extras, kv.1 ≠ k := by
    intro k hk kv hkv heq
    exact hextras kv hkv (heq ▸ hk)
  unfold isLinterConfigObj isLinterConfigTypeObj isWidenedConfigRecordObj at hbase ⊢
  simp only [requiredKey_append base extras "name" (hkey "name" (by decide)),
    requiredKey_append base extras "command" (hkey "command" (by decide)),
    requiredKey_append base extras "configFiles" (hkey "configFiles" (by decide)),
    requiredKey_append base extras "enabled" (hkey "enabled" (by decide)),
    requiredKey_append base extras "languages" (hkey "languages" (by decide)),
    requiredKey_append base extras "capabilities" (hkey "capabilities" (by decide)),
    optionalKey_append base extras "args" (hkey "args" (by decide)),
    requiredKey_append base extras "url" (hkey "url" (by decide)),
    requiredKey_append base extras "when" (hkey "when" (by decide)),
    optionalKey_append base extras "importPath" (hkey "importPath" (by decide))]
  exact hbase

/-- A concrete configuration object carrying every required declared field. -/
def sampleConfigObj : List (String × JsValue) :=
  [("name", .str "rubocop"),
   ("command", .arr [.str "rubocop", .str "$file"]),
   ("configFiles", .arr [.str ".rubocop.yml"]),
   ("enabled", .boolean true),
   ("languages", .arr [.str "ruby"]),
   ("capabilities", .arr [.str "fix-one"]),
   ("url", .str "https://rubocop.org"),
   ("when", .arr [])]

/-- Concrete extra entries under keys outside the declared field set. -/
def sampleExtraEntries : List (String × JsValue) :=
  [("customFlag", .boolean true), ("retries", .number 3)]

/-- Witness for C4: the concrete configuration object conforms, its extra
keys are undeclared, and the extended object still conforms. -/
theorem linterConfig_schema_open_witness :
    isLinterConfigObj sampleConfigObj = true ∧
    isLinterConfigObj (sampleConfigObj ++ sampleExtraEntries) = true :=
  ⟨by decide,
    linterConfig_schema_open sampleConfigObj sampleExtraEntries (by decide) (by decide)⟩

/-- The TypeScript type of a `LinterOffense` field, as written in the two
declarations. -/
inductive TsFieldType where
  | str
  | num
  | bool
  | uriTy
  | severityTy
  | inlineFixUnion
  | unknownTy
deriving DecidableEq, BEq, Repr

/-- One field of a TypeScript record declaration: its name, its declared type
and whether it is marked optional (`?`). -/
structure FieldDecl where
  name : String
  type : TsFieldType
  optional : Bool
deriving DecidableEq, BEq, Repr

/-- The field list of `LinterOffense` as declared in the older revision,
`src/unnamed/part_000` lines 11-65. -/
def linterOffenseFieldsOld : List FieldDecl :=
  [⟨"code", .str, false⟩,
   ⟨"message", .str, false⟩,
   ⟨"source", .str, false⟩,
   ⟨"uri", .uriTy, false⟩,
   ⟨"severity", .severityTy, false⟩,
   ⟨"lineStart", .num, false⟩,
   ⟨"columnStart", .num, false⟩,
   ⟨"lineEnd", .num, false⟩,
   ⟨"columnEnd", .num, false⟩,
   ⟨"correctable", .bool, false⟩,
   ⟨"docsUrl", .str, true⟩]

/-- The field list of `LinterOffense` as declared in the current revision,
`src/out/index.d.ts` lines 11-91. -/
def linterOffenseFieldsNew : List FieldDecl :=
  [⟨"code", .str, false⟩,
   ⟨"message", .str, false⟩,
   ⟨"source", .str, false⟩,
   ⟨"uri", .uriTy, false⟩,
   ⟨"severity", .severityTy, false⟩,
   ⟨"lineStart", .num, false⟩,
   ⟨"columnStart", .num, false⟩,
   ⟨"lineEnd", .num, false⟩,
   ⟨"columnEnd", .num, false⟩,
   ⟨"correctable", .bool, false⟩,
   ⟨"docsUrl", .str, true⟩,
   ⟨"inlineFix", .inlineFixUnion, true⟩,
   ⟨"meta", .unknownTy, true⟩]

/-- **C10.** The current `LinterOffense` declaration extends the older one
backward-compatibly: every field of the older declaration appears in the
current one with the same type and optionality; fields sharing a name agree
exactly (no retyping, no optionality change); and the fields the current
declaration adds are precisely the optional `inlineFix` and `meta`. -/
theorem linterOffense_backward_compatible :
    linterOffenseFieldsOld.all (fun f => linterOffenseFieldsNew.contains f) = true ∧
    linterOffenseFieldsOld.all
      (fun f => linterOffenseFieldsNew.all (fun g => f.name != g.name || f == g)) = true ∧
    linterOffenseFieldsNew.filter (fun f => !(linterOffenseFieldsOld.contains f)) =
      [⟨"inlineFix", .inlineFixUnion, true⟩, ⟨"meta", .unknownTy, true⟩] :=
  ⟨by decide, by decide, by decide⟩

end LinterApi
